import Mathlib

/-!
# Testflight-watcher: the polling loop of `main.go`

A shallow embedding of `main.go`.  The program is one sequential loop around
three functions that talk to the network; the network and the Go standard
library are not part of the program, so their answers are inputs of the
embedding:

* the answer to each HTTP request is an argument (`Except String Response`,
  the Go pair `(resp, err)`),
* `json.Marshal`, `http.NewRequest`, the JSON decoder and the process
  environment are the fields of `Runtime`,
* what the program does to the outside (requests, console output, sleeping,
  calls of the three functions) is returned as a list of `Event`s.

Go's `int` is modelled as `Int` wrapped to 64 bits (`wrapInt`), Go's `string`
and `[]byte` as `String`, a Go `error` as the text of its `Error()` method.
-/

namespace TestflightWatcher

/-! ## Go values -/

/-- Smallest value of Go's `int` where `int` is 64 bits wide. -/
def minInt : Int := -9223372036854775808

/-- Largest value of Go's `int` where `int` is 64 bits wide. -/
def maxInt : Int := 9223372036854775807

/-- Two's-complement wrap-around of an integer result into the range of `int`:
Go's signed arithmetic wraps silently on overflow. -/
def wrapInt (x : Int) : Int := (x - minInt) % 18446744073709551616 + minInt

/-- `strings.HasPrefix`, on the characters of the two strings. -/
def hasPrefixChars : List Char → List Char → Bool
  | _, [] => true
  | [], _ :: _ => false
  | c :: cs, p :: ps => c == p && hasPrefixChars cs ps

/-- `strings.Contains`, on the characters of the two strings: some suffix of
`s` starts with `substr`. -/
def containsChars : List Char → List Char → Bool
  | [], substr => hasPrefixChars [] substr
  | c :: cs, substr => hasPrefixChars (c :: cs) substr || containsChars cs substr

/-- `strings.Contains(s, substr)`. -/
def stringsContains (s substr : String) : Bool :=
  containsChars s.data substr.data

/-- Outcome of `ioutil.ReadAll(resp.Body)`: the bytes read, and the read error
if there was one. -/
structure ReadResult where
  data : String
  err : Option String

/-- The fields of `http.Response` the program looks at. -/
structure Response where
  StatusCode : Int
  Body : ReadResult

/-- What the program does to the outside world. -/
inductive Event where
  /-- Text written by `fmt.Print`, `fmt.Println` or `fmt.Printf`. -/
  | print (text : String)
  /-- Call of `checkAppStatus`. -/
  | checkCalled (appURL : String)
  /-- Call of `sendPushoverNotification`. -/
  | pushoverCalled (appName appURL : String)
  /-- Call of `sendDiscordNotification`. -/
  | discordCalled (appName appURL : String)
  /-- Request sent by `http.Get`. -/
  | httpGet (url : String)
  /-- Request sent by `http.PostForm`. -/
  | httpPostForm (url : String) (form : List (String × String))
  /-- Request sent by `http.DefaultClient.Do`. -/
  | httpDo (method url : String) (header : List (String × String)) (body : String)
  /-- Call of `time.Sleep`, in nanoseconds. -/
  | sleep (ns : Nat)
deriving DecidableEq

/-- The events of a run, oldest first. -/
abbrev Trace := List Event

/-! ## The declarations of `main.go` -/

/-- A TestFlight app to monitor. -/
structure AppConfig where
  Name : String
  URL : String
  NoSlotCount : Int
deriving DecidableEq

/-- The configuration for Pushover notifications. -/
structure PushoverConfig where
  UserKey : String
  APIToken : String

/-- The process environment and the standard-library functions whose results
the program branches on. -/
structure Runtime where
  /-- The global `pushoverConfig`, read from the environment at start. -/
  pushoverConfig : PushoverConfig
  /-- The global `discordWebhookURL`, read from the environment at start. -/
  discordWebhookURL : String
  /-- Value of `os.Getenv("OS")`. -/
  osEnv : String
  /-- Outcome of `json.Marshal` on a `map[string]string`. -/
  jsonMarshal : List (String × String) → Except String String
  /-- Error of `http.NewRequest(method, url, body)`, if any. -/
  newRequest : String → String → String → Option String
  /-- Outcome of `json.NewDecoder(body).Decode` into a nil
  `map[string]interface{}`: the entries the map holds afterwards (key and
  rendered value, in key order), and the error `Decode` returns, if any.  The
  decoder may store entries and return an error all the same. -/
  jsonDecode : ReadResult → List (String × String) × Option String

/-- The apps to monitor for available slots. -/
def appsToMonitor : List AppConfig :=
  [ ⟨"WhatsApp", "https://testflight.apple.com/join/krUFQpyJ", 0⟩,
    ⟨"Capcut", "https://testflight.apple.com/join/Gu9kI6ky", 0⟩,
    ⟨"Instagram", "https://testflight.apple.com/join/72eyUWVE", 0⟩,
    ⟨"WhatsApp Business", "https://testflight.apple.com/join/oscYikr0", 0⟩,
    ⟨"Snapchat", "https://testflight.apple.com/join/p7hGbZUR", 0⟩ ]

/-- The constant `checkInterval = 5 * time.Second`, in nanoseconds. -/
def checkInterval : Nat := 5 * 1000000000

/-- `checkAppStatus`: whether a TestFlight slot is available.  `reply` is what
`http.Get(appURL)` returns. -/
def checkAppStatus (reply : Except String Response) (appURL : String) :
    Except String Bool × Trace :=
  let tr : Trace := [Event.checkCalled appURL, Event.httpGet appURL]
  match reply with
  | .error err => (.error ("Error fetching URL: " ++ err), tr)
  | .ok resp =>
    if resp.StatusCode != 200 then
      (.error ("Unexpected HTTP status code: " ++ toString resp.StatusCode), tr)
    else
      match resp.Body.err with
      | some err => (.error ("Error reading page content: " ++ err), tr)
      | none => (.ok (!stringsContains resp.Body.data "This beta is full"), tr)

/-- The `%v` rendering of a `map[string]interface{}`, given by its entries. -/
def fmtMap (m : List (String × String)) : String :=
  "map[" ++ " ".intercalate (m.map fun kv => kv.1 ++ ":" ++ kv.2) ++ "]"

/-- `sendPushoverNotification`: `none` is Go's `nil` error.  `reply` is what
`http.PostForm` returns. -/
def sendPushoverNotification (rt : Runtime) (reply : Except String Response)
    (appName appURL : String) : Option String × Trace :=
  let message : List (String × String) :=
    [ ("token", rt.pushoverConfig.APIToken),
      ("user", rt.pushoverConfig.UserKey),
      ("title", "Slot available: " ++ appName),
      ("message", "A slot for the app \x27" ++ appName
        ++ "\x27 is available. Here is the link: " ++ appURL),
      ("url", appURL),
      ("url_title", "TestFlight Link") ]
  let tr : Trace :=
    [ Event.pushoverCalled appName appURL,
      Event.httpPostForm "https://api.pushover.net/1/messages.json" message ]
  match reply with
  | .error err => (some ("Error sending Pushover notification: " ++ err), tr)
  | .ok resp =>
    if resp.StatusCode != 200 then
      -- the error `Decode` returns is dropped, the map is printed as `Decode` left it
      let response := (rt.jsonDecode resp.Body).1
      (some ("Error sending Pushover notification: " ++ fmtMap response), tr)
    else
      (none, tr)

/-- `sendDiscordNotification`: `none` is Go's `nil` error.  `reply` is what
`http.DefaultClient.Do` returns. -/
def sendDiscordNotification (rt : Runtime) (reply : Except String Response)
    (appName appURL : String) : Option String × Trace :=
  let payload : List (String × String) :=
    [("content", "Slot available for **" ++ appName ++ "**! Check it out here: " ++ appURL)]
  match rt.jsonMarshal payload with
  | .error err =>
    (some ("Error creating Discord payload: " ++ err), [Event.discordCalled appName appURL])
  | .ok payloadBytes =>
    match rt.newRequest "POST" rt.discordWebhookURL payloadBytes with
    | some err =>
      (some ("Error creating Discord request: " ++ err), [Event.discordCalled appName appURL])
    | none =>
      let tr : Trace :=
        [ Event.discordCalled appName appURL,
          Event.httpDo "POST" rt.discordWebhookURL
            [("Content-Type", "application/json")] payloadBytes ]
      match reply with
      | .error err => (some ("Error sending Discord notification: " ++ err), tr)
      | .ok resp =>
        if resp.StatusCode != 204 then
          (some ("Unexpected Discord response: " ++ resp.Body.data), tr)
        else
          (none, tr)

/-- `clearConsole`: clears the terminal output. -/
def clearConsole (rt : Runtime) : Trace :=
  let cmd := if stringsContains rt.osEnv "Windows" then "cls" else "clear"
  [Event.print ("\x1b[H\x1b[2J" ++ cmd)]

/-- The network's answers during one pass over the registry, by registry
index: to the `http.Get` of the check, to the `http.PostForm` of the Pushover
notifier and to the `Do` of the Discord notifier. -/
structure Net where
  get : Nat → Except String Response
  postForm : Nat → Except String Response
  clientDo : Nat → Except String Response

/-- Assignment to `appsToMonitor[i].NoSlotCount`, the new value computed from
the stored one. -/
def updateCount (apps : List AppConfig) (i : Nat) (f : Int → Int) : List AppConfig :=
  match apps[i]? with
  | some a => apps.set i { a with NoSlotCount := f a.NoSlotCount }
  | none => apps

/-- Read of `appsToMonitor[i].NoSlotCount`. -/
def countAt (apps : List AppConfig) (i : Nat) : Int :=
  match apps[i]? with
  | some a => a.NoSlotCount
  | none => 0

/-- Console line for a failed notifier, nothing when it succeeded. -/
def printIfErr (label : String) (appName : String) (err : Option String) : Trace :=
  match err with
  | some e => [Event.print ("Error sending " ++ label ++ " notification for " ++ appName
      ++ ": " ++ e ++ "\n")]
  | none => []

/-- The body of `for i, app := range appsToMonitor` in `main`: `app` is the
copy of element `i` taken at the start of the iteration, `apps` is the global
slice. -/
def loopBody (rt : Runtime) (net : Net) (i : Nat) (app : AppConfig)
    (apps : List AppConfig) : List AppConfig × Trace :=
  let chk := checkAppStatus (net.get i) app.URL
  match chk.1 with
  | .error err =>
    (apps, chk.2 ++ [Event.print ("Error checking " ++ app.Name ++ ": " ++ err ++ "\n")])
  | .ok status =>
    if status then
      let push := sendPushoverNotification rt (net.postForm i) app.Name app.URL
      let disc := sendDiscordNotification rt (net.clientDo i) app.Name app.URL
      (updateCount apps i (fun _ => 0),
        chk.2
          ++ [Event.print ("Slot available for " ++ app.Name ++ "! Sending notifications...\n")]
          ++ push.2 ++ printIfErr "Pushover" app.Name push.1
          ++ disc.2 ++ printIfErr "Discord" app.Name disc.1)
    else
      let apps1 := updateCount apps i (fun c => wrapInt (c + 1))
      (apps1,
        chk.2 ++ [Event.print ("No slot available for " ++ app.Name ++ " ("
          ++ toString (countAt apps1 i) ++ "x)\n")])

/-- The loop `for i, app := range appsToMonitor`, from index `i` on with `n`
iterations left. -/
def rangeLoop (rt : Runtime) (net : Net) : Nat → Nat → List AppConfig → List AppConfig × Trace
  | 0, _, apps => (apps, [])
  | n + 1, i, apps =>
    match apps[i]? with
    | none => (apps, [])
    | some app =>
      let s := loopBody rt net i app apps
      let r := rangeLoop rt net n (i + 1) s.1
      (r.1, s.2 ++ r.2)

/-- One iteration of the outer `for` of `main`: clear the console, pass over
the registry, sleep. -/
def cycle (rt : Runtime) (net : Net) (apps : List AppConfig) : List AppConfig × Trace :=
  let r := rangeLoop rt net apps.length 0 apps
  (r.1, clearConsole rt ++ r.2 ++ [Event.sleep checkInterval])

/-- The first `n` iterations of the outer `for` of `main`; `nets k` is the
network during iteration `k`. -/
def runCycles (rt : Runtime) (nets : Nat → Net) : Nat → List AppConfig → List AppConfig × Trace
  | 0, apps => (apps, [])
  | n + 1, apps =>
    let r := runCycles rt nets n apps
    let c := cycle rt (nets n) r.1
    (c.1, r.2 ++ c.2)

/-- The function `main`, stopped after `n` iterations of its endless loop. -/
def mainUpTo (rt : Runtime) (nets : Nat → Net) (n : Nat) : List AppConfig × Trace :=
  let r := runCycles rt nets n appsToMonitor
  (r.1, Event.print "TestFlight Monitor started...\n" :: r.2)

/-! ## Concrete inputs -/

/-- A body that is a JSON object in form and holds a number out of the range
of `float64`. -/
def overflowBody : String :=
  "\x7b\x22a\x22:1,\x22b\x22:1e999,\x22c\x22:\x22z\x22\x7d"

/-- The decoder on the bodies used below: on `overflowBody` it reports the
number as an error and decodes the object all the same; every other body used
below is not JSON, so it stores nothing and reports an error. -/
def demoDecode (body : ReadResult) : List (String × String) × Option String :=
  if body.data = overflowBody then
    ([("a", "1"), ("b", "+Inf"), ("c", "z")],
      some "json: cannot unmarshal number 1e999 into Go value of type float64")
  else
    ([], some "EOF")

/-- A runtime in which marshalling and request construction work and the
decoder is `demoDecode`. -/
def demoRuntime : Runtime where
  pushoverConfig := ⟨"user-key", "api-token"⟩
  discordWebhookURL := "https://discord.example/api/webhooks/1"
  osEnv := "Linux"
  jsonMarshal := fun m => .ok (fmtMap m)
  newRequest := fun _ _ _ => none
  jsonDecode := demoDecode

/-- A reply with the given status and fully read body. -/
def replyOf (status : Int) (body : String) : Except String Response :=
  .ok ⟨status, ⟨body, none⟩⟩

/-- Every page says the beta is full; the notifiers would succeed. -/
def netFull : Net :=
  ⟨fun _ => replyOf 200 "This beta is full.", fun _ => replyOf 200 "", fun _ => replyOf 204 ""⟩

/-- Every page offers the beta; Pushover answers 400, Discord 204. -/
def netOpen : Net :=
  ⟨fun _ => replyOf 200 "Join the beta now", fun _ => replyOf 400 "", fun _ => replyOf 204 ""⟩

/-- Every page answers 503. -/
def netDown : Net :=
  ⟨fun _ => replyOf 503 "This beta is full.", fun _ => replyOf 200 "", fun _ => replyOf 204 ""⟩

/-- A registry whose only target has reached the largest `int`. -/
def appsAtMaxInt : List AppConfig :=
  [⟨"WhatsApp", "https://testflight.apple.com/join/krUFQpyJ", 9223372036854775807⟩]

/-- A registry whose only target is one short of the largest `int`. -/
def appsBelowMaxInt : List AppConfig :=
  [⟨"WhatsApp", "https://testflight.apple.com/join/krUFQpyJ", 9223372036854775806⟩]

/-! ## What the theorems are stated with -/

/-- The event is a call of one of the two notifiers. -/
def Event.isNotifierCall : Event → Bool
  | .pushoverCalled _ _ => true
  | .discordCalled _ _ => true
  | _ => false

/-- The URL checked, when the event is a call of `checkAppStatus`. -/
def Event.checkedURL : Event → Option String
  | .checkCalled u => some u
  | _ => none

/-- The counter a target has after one pass, from the outcome of its check
and the counter it had. -/
def nextCount (outcome : Except String Bool) (c : Int) : Int :=
  match outcome with
  | .error _ => c
  | .ok true => 0
  | .ok false => wrapInt (c + 1)

/-- The target after one pass, from the target before it. -/
def stepApp (net : Net) (i : Nat) (app : AppConfig) : AppConfig :=
  { app with NoSlotCount := nextCount (checkAppStatus (net.get i) app.URL).1 app.NoSlotCount }

/-- The registry after a pass over the targets `apps`, the first of which has
index `i`. -/
def passFrom (net : Net) : Nat → List AppConfig → List AppConfig
  | _, [] => []
  | i, a :: as => stepApp net i a :: passFrom net (i + 1) as

/-- The events of one iteration of the range loop, for the target `app` at
index `i`. -/
def bodyTrace (rt : Runtime) (net : Net) (i : Nat) (app : AppConfig) : Trace :=
  (checkAppStatus (net.get i) app.URL).2 ++
    match (checkAppStatus (net.get i) app.URL).1 with
    | .error err => [Event.print ("Error checking " ++ app.Name ++ ": " ++ err ++ "\n")]
    | .ok true =>
      [Event.print ("Slot available for " ++ app.Name ++ "! Sending notifications...\n")]
        ++ (sendPushoverNotification rt (net.postForm i) app.Name app.URL).2
        ++ printIfErr "Pushover" app.Name
            (sendPushoverNotification rt (net.postForm i) app.Name app.URL).1
        ++ (sendDiscordNotification rt (net.clientDo i) app.Name app.URL).2
        ++ printIfErr "Discord" app.Name
            (sendDiscordNotification rt (net.clientDo i) app.Name app.URL).1
    | .ok false =>
      [Event.print ("No slot available for " ++ app.Name ++ " ("
        ++ toString (wrapInt (app.NoSlotCount + 1)) ++ "x)\n")]

/-- The events of a pass over the targets `apps`, the first of which has
index `i`. -/
def tracesFrom (rt : Runtime) (net : Net) : Nat → List AppConfig → Trace
  | _, [] => []
  | i, a :: as => bodyTrace rt net i a ++ tracesFrom rt net (i + 1) as

/-- The notifier calls one target causes in a pass, from the outcome of its
check. -/
def notifierCallsFor (outcome : Except String Bool) (app : AppConfig) : Trace :=
  match outcome with
  | .ok true => [Event.pushoverCalled app.Name app.URL, Event.discordCalled app.Name app.URL]
  | _ => []

/-! ## Lemmas -/

theorem hasPrefixChars_iff (s p : List Char) :
    hasPrefixChars s p = true ↔ ∃ post, s = p ++ post := by
  induction p generalizing s with
  | nil => simp [hasPrefixChars]
  | cons x xs ih =>
    cases s with
    | nil => simp [hasPrefixChars]
    | cons c cs =>
      simp only [hasPrefixChars, Bool.and_eq_true, beq_iff_eq, ih, List.cons_append,
        List.cons.injEq]
      constructor
      · rintro ⟨rfl, post, rfl⟩
        exact ⟨post, rfl, rfl⟩
      · rintro ⟨post, rfl, rfl⟩
        exact ⟨rfl, post, rfl⟩

theorem containsChars_iff (s substr : List Char) :
    containsChars s substr = true ↔ ∃ pre post, s = pre ++ substr ++ post := by
  induction s with
  | nil =>
    simp only [containsChars, hasPrefixChars_iff]
    constructor
    · rintro ⟨post, h⟩
      exact ⟨[], post, by simpa using h⟩
    · rintro ⟨pre, post, h⟩
      have h1 : pre ++ substr ++ post = [] := h.symm
      simp only [List.append_eq_nil] at h1
      exact ⟨[], by simp [h1.1.2]⟩
  | cons c cs ih =>
    simp only [containsChars, Bool.or_eq_true, hasPrefixChars_iff, ih]
    constructor
    · rintro (⟨post, h⟩ | ⟨pre, post, h⟩)
      · exact ⟨[], post, by simpa using h⟩
      · exact ⟨c :: pre, post, by simp [h]⟩
    · rintro ⟨pre, post, h⟩
      cases pre with
      | nil => exact Or.inl ⟨post, by simpa using h⟩
      | cons x xs =>
        simp only [List.cons_append, List.cons.injEq] at h
        exact Or.inr ⟨xs, post, h.2⟩

theorem stringsContains_iff (s substr : String) :
    stringsContains s substr = true ↔ ∃ pre post, s.data = pre ++ substr.data ++ post :=
  containsChars_iff s.data substr.data

theorem wrapInt_of_inRange (x : Int) (h1 : minInt ≤ x) (h2 : x ≤ maxInt) : wrapInt x = x := by
  unfold wrapInt
  unfold minInt maxInt at *
  omega

theorem updateCount_of_get (apps : List AppConfig) (i : Nat) (f : Int → Int) (a : AppConfig)
    (h : apps[i]? = some a) :
    updateCount apps i f = apps.set i { a with NoSlotCount := f a.NoSlotCount } := by
  simp [updateCount, h]

theorem countAt_set (apps : List AppConfig) (i : Nat) (a b : AppConfig)
    (h : apps[i]? = some a) : countAt (apps.set i b) i = b.NoSlotCount := by
  have hi : i < apps.length := by
    rcases List.getElem?_eq_some.1 h with ⟨hi, _⟩
    exact hi
  simp [countAt, List.getElem?_set, hi]

theorem set_self (apps : List AppConfig) (i : Nat) (a : AppConfig)
    (h : apps[i]? = some a) : apps.set i a = apps := by
  induction apps generalizing i with
  | nil => simp
  | cons x xs ih =>
    cases i with
    | zero => simp at h; simp [h]
    | succ j => simp at h; simp [ih j h]

theorem loopBody_eq (rt : Runtime) (net : Net) (i : Nat) (app : AppConfig)
    (apps : List AppConfig) (h : apps[i]? = some app) :
    loopBody rt net i app apps = (apps.set i (stepApp net i app), bodyTrace rt net i app) := by
  unfold loopBody bodyTrace stepApp nextCount
  rcases hc : (checkAppStatus (net.get i) app.URL).1 with err | status
  · simp [hc, set_self apps i app h]
  · cases status
    · simp [hc, updateCount_of_get apps i _ app h, countAt_set apps i app _ h]
    · simp [hc, updateCount_of_get apps i _ app h]

theorem rangeLoop_eq (rt : Runtime) (net : Net) (suf : List AppConfig) :
    ∀ pre : List AppConfig,
      rangeLoop rt net suf.length pre.length (pre ++ suf)
        = (pre ++ passFrom net pre.length suf, tracesFrom rt net pre.length suf) := by
  induction suf with
  | nil => intro pre; simp [rangeLoop, passFrom, tracesFrom]
  | cons a as ih =>
    intro pre
    have hget : (pre ++ a :: as)[pre.length]? = some a := by
      rw [List.getElem?_append_right (Nat.le_refl _)]
      simp
    have hset : (pre ++ a :: as).set pre.length (stepApp net pre.length a)
        = (pre ++ [stepApp net pre.length a]) ++ as := by
      simp [List.set_append]
    have ih1 := ih (pre ++ [stepApp net pre.length a])
    simp only [List.length_append, List.length_singleton] at ih1
    simp only [List.length_cons, rangeLoop, hget, loopBody_eq rt net _ a _ hget, hset, ih1,
      passFrom, tracesFrom]
    simp

theorem cycle_eq (rt : Runtime) (net : Net) (apps : List AppConfig) :
    cycle rt net apps
      = (passFrom net 0 apps, clearConsole rt ++ tracesFrom rt net 0 apps
          ++ [Event.sleep checkInterval]) := by
  have h := rangeLoop_eq rt net apps []
  simp only [List.length_nil, List.nil_append] at h
  simp [cycle, h]

theorem passFrom_length (net : Net) (apps : List AppConfig) :
    ∀ k, (passFrom net k apps).length = apps.length := by
  induction apps with
  | nil => intro k; rfl
  | cons a as ih => intro k; simp [passFrom, ih]

theorem passFrom_getElem? (net : Net) (apps : List AppConfig) :
    ∀ k j, (passFrom net k apps)[j]? = (apps[j]?).map (stepApp net (k + j)) := by
  induction apps with
  | nil => intro k j; simp [passFrom]
  | cons a as ih =>
    intro k j
    cases j with
    | zero => simp [passFrom]
    | succ j =>
      simp only [passFrom, List.getElem?_cons_succ, ih]
      have hk : k + 1 + j = k + (j + 1) := by omega
      rw [hk]

theorem cycle_getElem? (rt : Runtime) (net : Net) (apps : List AppConfig) (i : Nat) :
    (cycle rt net apps).1[i]? = (apps[i]?).map (stepApp net i) := by
  rw [cycle_eq]
  simpa using passFrom_getElem? net apps 0 i


theorem bodyTrace_subset_tracesFrom (rt : Runtime) (net : Net) (apps : List AppConfig) :
    ∀ k j a, apps[j]? = some a → ∀ e ∈ bodyTrace rt net (k + j) a, e ∈ tracesFrom rt net k apps := by
  induction apps with
  | nil => intro k j a h; simp at h
  | cons x xs ih =>
    intro k j a h e he
    cases j with
    | zero =>
      simp only [List.getElem?_cons_zero, Option.some.injEq] at h
      subst h
      simp only [tracesFrom, List.mem_append]
      exact Or.inl he
    | succ j =>
      simp only [List.getElem?_cons_succ] at h
      have hk : k + (j + 1) = k + 1 + j := by omega
      rw [hk] at he
      simp only [tracesFrom, List.mem_append]
      exact Or.inr (ih (k + 1) j a h e he)

theorem bodyTrace_subset_cycle (rt : Runtime) (net : Net) (apps : List AppConfig) (i : Nat)
    (a : AppConfig) (h : apps[i]? = some a) (e : Event) (he : e ∈ bodyTrace rt net i a) :
    e ∈ (cycle rt net apps).2 := by
  rw [cycle_eq]
  have h1 := bodyTrace_subset_tracesFrom rt net apps 0 i a h e (by simpa using he)
  simp only [List.mem_append]
  exact Or.inl (Or.inr h1)

theorem sendPushoverNotification_calls (rt : Runtime) (reply : Except String Response)
    (appName appURL : String) :
    (sendPushoverNotification rt reply appName appURL).2.filter Event.isNotifierCall
      = [Event.pushoverCalled appName appURL] := by
  unfold sendPushoverNotification
  rcases reply with err | resp
  · simp [Event.isNotifierCall]
  · by_cases hs : resp.StatusCode = 200 <;> simp [hs, Event.isNotifierCall]

theorem sendDiscordNotification_calls (rt : Runtime) (reply : Except String Response)
    (appName appURL : String) :
    (sendDiscordNotification rt reply appName appURL).2.filter Event.isNotifierCall
      = [Event.discordCalled appName appURL] := by
  unfold sendDiscordNotification
  cases hm : rt.jsonMarshal
      [("content", "Slot available for **" ++ appName ++ "**! Check it out here: " ++ appURL)] with
  | error err => simp only [hm]; simp [Event.isNotifierCall]
  | ok payloadBytes =>
    cases hr : rt.newRequest "POST" rt.discordWebhookURL payloadBytes with
    | some err => simp only [hm, hr]; simp [Event.isNotifierCall]
    | none =>
      simp only [hm, hr]
      rcases reply with err | resp
      · simp [Event.isNotifierCall]
      · by_cases hs : resp.StatusCode = 204 <;> simp [hs, Event.isNotifierCall]

theorem printIfErr_calls (label appName : String) (err : Option String) :
    (printIfErr label appName err).filter Event.isNotifierCall = [] := by
  cases err <;> simp [printIfErr, Event.isNotifierCall]

theorem checkAppStatus_trace (reply : Except String Response) (appURL : String) :
    (checkAppStatus reply appURL).2 = [Event.checkCalled appURL, Event.httpGet appURL] := by
  unfold checkAppStatus
  rcases reply with err | resp
  · rfl
  · by_cases hs : resp.StatusCode = 200
    · cases hb : resp.Body.err <;> simp [hs, hb]
    · simp [hs]

theorem bodyTrace_calls (rt : Runtime) (net : Net) (i : Nat) (a : AppConfig) :
    (bodyTrace rt net i a).filter Event.isNotifierCall
      = notifierCallsFor (checkAppStatus (net.get i) a.URL).1 a := by
  unfold bodyTrace notifierCallsFor
  rw [checkAppStatus_trace]
  rcases (checkAppStatus (net.get i) a.URL).1 with err | status
  · simp [Event.isNotifierCall]
  · cases status
    · simp [Event.isNotifierCall]
    · simp only [List.filter_append, sendPushoverNotification_calls,
        sendDiscordNotification_calls, printIfErr_calls]
      simp [Event.isNotifierCall]

theorem tracesFrom_calls (rt : Runtime) (net : Net) (apps : List AppConfig) :
    ∀ k, (tracesFrom rt net k apps).filter Event.isNotifierCall
      = (List.enumFrom k apps).flatMap
          (fun p => notifierCallsFor (checkAppStatus (net.get p.1) p.2.URL).1 p.2) := by
  induction apps with
  | nil => intro k; simp [tracesFrom]
  | cons a as ih =>
    intro k
    simp [tracesFrom, List.filter_append, bodyTrace_calls, ih, List.enumFrom_cons]

theorem tracesFrom_checks (rt : Runtime) (net : Net) (apps : List AppConfig) :
    ∀ k, (tracesFrom rt net k apps).filterMap Event.checkedURL = apps.map AppConfig.URL := by
  induction apps with
  | nil => intro k; simp [tracesFrom]
  | cons a as ih =>
    intro k
    have hb : (bodyTrace rt net k a).filterMap Event.checkedURL = [a.URL] := by
      unfold bodyTrace
      rw [checkAppStatus_trace]
      rcases (checkAppStatus (net.get k) a.URL).1 with err | status
      · simp [Event.checkedURL]
      · cases status
        · simp [Event.checkedURL]
        · have hp : ∀ r, (sendPushoverNotification rt r a.Name a.URL).2
              = [Event.pushoverCalled a.Name a.URL,
                  Event.httpPostForm "https://api.pushover.net/1/messages.json"
                    [ ("token", rt.pushoverConfig.APIToken),
                      ("user", rt.pushoverConfig.UserKey),
                      ("title", "Slot available: " ++ a.Name),
                      ("message", "A slot for the app \x27" ++ a.Name
                        ++ "\x27 is available. Here is the link: " ++ a.URL),
                      ("url", a.URL),
                      ("url_title", "TestFlight Link") ]] := by
            intro r
            unfold sendPushoverNotification
            rcases r with err | resp
            · rfl
            · by_cases hs : resp.StatusCode = 200 <;> simp [hs]
          have hd : ∀ r, (sendDiscordNotification rt r a.Name a.URL).2.filterMap
              Event.checkedURL = [] := by
            intro r
            unfold sendDiscordNotification
            cases hm : rt.jsonMarshal [("content", "Slot available for **" ++ a.Name
                ++ "**! Check it out here: " ++ a.URL)] with
            | error err => simp only [hm]; simp [Event.checkedURL]
            | ok payloadBytes =>
              cases hr : rt.newRequest "POST" rt.discordWebhookURL payloadBytes with
              | some err => simp only [hm, hr]; simp [Event.checkedURL]
              | none =>
                simp only [hm, hr]
                rcases r with err | resp
                · simp [Event.checkedURL]
                · by_cases hs : resp.StatusCode = 204 <;> simp [hs, Event.checkedURL]
          have hq : ∀ l n (e : Option String),
              (printIfErr l n e).filterMap Event.checkedURL = [] := by
            intro l n e
            cases e <;> simp [printIfErr, Event.checkedURL]
          simp only [List.filterMap_append, hp, hd, hq]
          simp [Event.checkedURL]
    simp only [tracesFrom, List.filterMap_append, hb, ih, List.map_cons]
    rfl

theorem runCycles_getElem? (rt : Runtime) (nets : Nat → Net) (apps : List AppConfig)
    (i : Nat) (a : AppConfig) (n : Nat) (h : apps[i]? = some a)
    (hlo : minInt ≤ a.NoSlotCount) (hhi : a.NoSlotCount + n ≤ maxInt)
    (hfull : ∀ k, k < n → (checkAppStatus ((nets k).get i) a.URL).1 = .ok false) :
    ∀ k, k ≤ n →
      (runCycles rt nets k apps).1[i]? = some { a with NoSlotCount := a.NoSlotCount + k } := by
  intro k
  induction k with
  | zero => intro _; simpa [runCycles] using h
  | succ k ih =>
    intro hk
    have ih1 := ih (by omega)
    simp only [runCycles, cycle_getElem?, ih1, Option.map_some', stepApp, hfull k (by omega),
      nextCount]
    have hw : wrapInt (a.NoSlotCount + (k : Int) + 1) = a.NoSlotCount + (k : Int) + 1 :=
      wrapInt_of_inRange _ (by omega) (by omega)
    rw [hw]
    simp [Int.add_assoc]


/-! ## The availability checker -/

/-- C1: when the fetch succeeds, the status is 200 and the body is read without
error, `checkAppStatus` returns no error; it returns `false` (unavailable) if
the body contains the text "This beta is full" anywhere, compared character by
character, and `true` (available) otherwise. -/
theorem checkAppStatus_marker (resp : Response) (appURL : String)
    (hs : resp.StatusCode = 200) (hb : resp.Body.err = none) :
    ((∃ pre post, resp.Body.data.data = pre ++ "This beta is full".data ++ post) →
        (checkAppStatus (.ok resp) appURL).1 = .ok false) ∧
    ((¬ ∃ pre post, resp.Body.data.data = pre ++ "This beta is full".data ++ post) →
        (checkAppStatus (.ok resp) appURL).1 = .ok true) := by
  have hc := stringsContains_iff resp.Body.data "This beta is full"
  constructor
  · intro h
    have h1 := hc.2 h
    simp [checkAppStatus, hs, hb, h1]
  · intro h
    have h1 : stringsContains resp.Body.data "This beta is full" = false := by
      cases hv : stringsContains resp.Body.data "This beta is full"
      · rfl
      · exact absurd (hc.1 hv) h
    simp [checkAppStatus, hs, hb, h1]

/-- C1 at the bodies "This beta is full." (unavailable) and "Join the beta now"
(available). -/
theorem checkAppStatus_marker_witness :
    (checkAppStatus (.ok ⟨200, ⟨"This beta is full.", none⟩⟩)
        "https://testflight.apple.com/join/krUFQpyJ").1 = .ok false ∧
    (checkAppStatus (.ok ⟨200, ⟨"Join the beta now", none⟩⟩)
        "https://testflight.apple.com/join/krUFQpyJ").1 = .ok true :=
  ⟨(checkAppStatus_marker ⟨200, ⟨"This beta is full.", none⟩⟩ _ rfl rfl).1
      ⟨[], ".".data, by decide⟩,
   (checkAppStatus_marker ⟨200, ⟨"Join the beta now", none⟩⟩ _ rfl rfl).2
      (fun h => absurd ((stringsContains_iff "Join the beta now" "This beta is full").2 h)
        (by decide))⟩

/-- C2: `checkAppStatus` returns an error exactly when the fetch fails, the
status is not 200, or reading the body fails, and then it returns no
classification; the error of a failed fetch, of a status other than 200 and of
a failed read are the three messages of the source, and the one for a status
other than 200 ends in that status code, whatever the body. -/
theorem checkAppStatus_fails_iff (reply : Except String Response) (appURL : String) :
    ((∃ e, (checkAppStatus reply appURL).1 = .error e) ↔
      ((∃ err, reply = .error err) ∨
        ∃ resp, reply = .ok resp ∧ (resp.StatusCode ≠ 200 ∨ ∃ err, resp.Body.err = some err))) ∧
    ((∃ e, (checkAppStatus reply appURL).1 = .error e) →
      ∀ b, (checkAppStatus reply appURL).1 ≠ .ok b) ∧
    (∀ err, reply = .error err →
      (checkAppStatus reply appURL).1 = .error ("Error fetching URL: " ++ err)) ∧
    (∀ resp, reply = .ok resp → resp.StatusCode ≠ 200 →
      (checkAppStatus reply appURL).1
        = .error ("Unexpected HTTP status code: " ++ toString resp.StatusCode)) ∧
    (∀ resp err, reply = .ok resp → resp.StatusCode = 200 → resp.Body.err = some err →
      (checkAppStatus reply appURL).1 = .error ("Error reading page content: " ++ err)) := by
  refine ⟨?_, ?_, ?_, ?_, ?_⟩
  · rcases reply with err | resp
    · simp [checkAppStatus]
    · by_cases hs : resp.StatusCode = 200
      · cases hb : resp.Body.err <;> simp [checkAppStatus, hs, hb]
      · simp [checkAppStatus, hs]
  · rintro ⟨e, he⟩ b hb
    rw [he] at hb
    cases hb
  · rintro err rfl
    rfl
  · rintro resp rfl hs
    simp [checkAppStatus, hs]
  · rintro resp err rfl hs hb
    simp [checkAppStatus, hs, hb]

/-- C2 at status 503 with a body that contains the marker: the check fails and
its error names 503. -/
theorem checkAppStatus_fails_iff_witness :
    (checkAppStatus (.ok ⟨503, ⟨"This beta is full.", none⟩⟩)
        "https://testflight.apple.com/join/krUFQpyJ").1
      = .error "Unexpected HTTP status code: 503" :=
  (checkAppStatus_fails_iff (.ok ⟨503, ⟨"This beta is full.", none⟩⟩)
    "https://testflight.apple.com/join/krUFQpyJ").2.2.2.1 _ rfl (by decide)

/-! ## The notifiers -/

/-- C8: `sendDiscordNotification` returns `nil` exactly when the payload is
marshalled, the request is constructed, the POST returns a response and its
status is 204.  Once the POST has returned a response, every other status
(200 too) gives the error "Unexpected Discord response: " followed by the body
as read. -/
theorem sendDiscordNotification_ok_iff (rt : Runtime) (reply : Except String Response)
    (appName appURL : String) :
    ((sendDiscordNotification rt reply appName appURL).1 = none ↔
      ∃ payloadBytes resp,
        rt.jsonMarshal [("content", "Slot available for **" ++ appName
          ++ "**! Check it out here: " ++ appURL)] = .ok payloadBytes ∧
        rt.newRequest "POST" rt.discordWebhookURL payloadBytes = none ∧
        reply = .ok resp ∧ resp.StatusCode = 204) ∧
    (∀ payloadBytes resp,
        rt.jsonMarshal [("content", "Slot available for **" ++ appName
          ++ "**! Check it out here: " ++ appURL)] = .ok payloadBytes →
        rt.newRequest "POST" rt.discordWebhookURL payloadBytes = none →
        reply = .ok resp → resp.StatusCode ≠ 204 →
      (sendDiscordNotification rt reply appName appURL).1
        = some ("Unexpected Discord response: " ++ resp.Body.data)) := by
  constructor
  · unfold sendDiscordNotification
    cases hm : rt.jsonMarshal [("content", "Slot available for **" ++ appName
        ++ "**! Check it out here: " ++ appURL)] with
    | error err => simp only [hm]; simp
    | ok payloadBytes =>
      cases hr : rt.newRequest "POST" rt.discordWebhookURL payloadBytes with
      | some err =>
        simp only [hm, hr]
        constructor
        · intro h; cases h
        · rintro ⟨pb, resp, h1, h2, _⟩
          cases h1
          rw [hr] at h2
          cases h2
      | none =>
        simp only [hm, hr]
        rcases reply with err | resp
        · simp
        · by_cases hs : resp.StatusCode = 204
          · simp only [bne_iff_ne, ne_eq, hs, not_true_eq_false, if_false, true_iff]
            exact ⟨payloadBytes, resp, rfl, hr, rfl, hs⟩
          · simp [hs]
  · rintro payloadBytes resp hm hr rfl hs
    unfold sendDiscordNotification
    simp only [hm, hr]
    simp [hs]

/-- C8 at a 200 answer: an error that carries the body. -/
theorem sendDiscordNotification_ok_iff_witness :
    (sendDiscordNotification demoRuntime (.ok ⟨200, ⟨"ok", none⟩⟩) "WhatsApp"
        "https://testflight.apple.com/join/krUFQpyJ").1
      = some "Unexpected Discord response: ok" :=
  (sendDiscordNotification_ok_iff demoRuntime (.ok ⟨200, ⟨"ok", none⟩⟩) "WhatsApp"
    "https://testflight.apple.com/join/krUFQpyJ").2 _ _ rfl rfl rfl (by decide)

/-! ## The monitor loop -/

/-- C3: after a pass in which the check of the target at index `i` returns
available, that target's `NoSlotCount` is 0, whatever it was before and
whatever the two notifiers return. -/
theorem cycle_available_resets (rt : Runtime) (net : Net) (apps : List AppConfig) (i : Nat)
    (a : AppConfig) (h : apps[i]? = some a)
    (hc : (checkAppStatus (net.get i) a.URL).1 = .ok true) :
    ((cycle rt net apps).1[i]?).map AppConfig.NoSlotCount = some 0 := by
  simp [cycle_getElem?, h, stepApp, hc, nextCount]

/-- C3 on a target with counter 7 whose page offers the beta while Pushover
answers 400. -/
theorem cycle_available_resets_witness :
    ((cycle demoRuntime netOpen [⟨"WhatsApp", "https://testflight.apple.com/join/krUFQpyJ", 7⟩]).1[0]?).map
        AppConfig.NoSlotCount = some 0 :=
  cycle_available_resets demoRuntime netOpen
    [⟨"WhatsApp", "https://testflight.apple.com/join/krUFQpyJ", 7⟩] 0 _ rfl rfl

/-- C4 as the spec states it, refuted: a target whose counter is the largest
`int` is found unavailable, and its counter after the pass is the smallest
`int`, not the old value plus 1. -/
theorem cycle_unavailable_overflow :
    appsAtMaxInt[0]? = some ⟨"WhatsApp", "https://testflight.apple.com/join/krUFQpyJ", maxInt⟩ ∧
    (checkAppStatus (netFull.get 0) "https://testflight.apple.com/join/krUFQpyJ").1 = .ok false ∧
    ((cycle demoRuntime netFull appsAtMaxInt).1[0]?).map AppConfig.NoSlotCount = some minInt ∧
    minInt ≠ maxInt + 1 :=
  ⟨rfl, rfl, rfl, by decide⟩

/-- C4, amended: after a pass in which the check of the target at index `i`
returns unavailable, and before which its `NoSlotCount` was an `int` below the
largest one, its `NoSlotCount` is the old value plus 1, and that value is the
one printed in the status line. -/
theorem cycle_unavailable_increments (rt : Runtime) (net : Net) (apps : List AppConfig)
    (i : Nat) (a : AppConfig) (h : apps[i]? = some a)
    (hc : (checkAppStatus (net.get i) a.URL).1 = .ok false)
    (hlo : minInt ≤ a.NoSlotCount) (hhi : a.NoSlotCount < maxInt) :
    ((cycle rt net apps).1[i]?).map AppConfig.NoSlotCount = some (a.NoSlotCount + 1) ∧
    Event.print ("No slot available for " ++ a.Name ++ " (" ++ toString (a.NoSlotCount + 1)
      ++ "x)\n") ∈ (cycle rt net apps).2 := by
  have hw : wrapInt (a.NoSlotCount + 1) = a.NoSlotCount + 1 :=
    wrapInt_of_inRange _ (by omega) (by omega)
  constructor
  · simp [cycle_getElem?, h, stepApp, hc, nextCount, hw]
  · apply bodyTrace_subset_cycle rt net apps i a h
    unfold bodyTrace
    rw [hc, hw]
    simp

/-- C4, amended, on the target "WhatsApp" with counter 0 and body
"This beta is full.": the counter becomes 1 and "(1x)" is printed. -/
theorem cycle_unavailable_increments_witness :
    ((cycle demoRuntime netFull appsToMonitor).1[0]?).map AppConfig.NoSlotCount = some (0 + 1) ∧
    Event.print ("No slot available for " ++ "WhatsApp" ++ " (" ++ toString ((0 : Int) + 1)
      ++ "x)\n") ∈ (cycle demoRuntime netFull appsToMonitor).2 :=
  cycle_unavailable_increments demoRuntime netFull appsToMonitor 0
    ⟨"WhatsApp", "https://testflight.apple.com/join/krUFQpyJ", 0⟩ rfl rfl (by decide) (by decide)

/-- C5: after a pass in which the check of the target at index `i` fails with
an error (of any of the three kinds), that target's `NoSlotCount` is what it
was before the pass. -/
theorem cycle_error_keeps_count (rt : Runtime) (net : Net) (apps : List AppConfig) (i : Nat)
    (a : AppConfig) (err : String) (h : apps[i]? = some a)
    (hc : (checkAppStatus (net.get i) a.URL).1 = .error err) :
    ((cycle rt net apps).1[i]?).map AppConfig.NoSlotCount = some a.NoSlotCount := by
  simp [cycle_getElem?, h, stepApp, hc, nextCount]

/-- C5 on a target with counter 7 whose page answers 503. -/
theorem cycle_error_keeps_count_witness :
    ((cycle demoRuntime netDown [⟨"WhatsApp", "https://testflight.apple.com/join/krUFQpyJ", 7⟩]).1[0]?).map
        AppConfig.NoSlotCount = some 7 :=
  cycle_error_keeps_count demoRuntime netDown
    [⟨"WhatsApp", "https://testflight.apple.com/join/krUFQpyJ", 7⟩] 0 _
    "Unexpected HTTP status code: 503" rfl rfl

/-- C6: the calls of the two notifiers during one pass are, target by target
in registry order, one call of the Pushover notifier followed by one call of
the Discord notifier, both with the target's name and URL, for each target
whose check returns available, and no call for a target whose check returns
unavailable or fails; this holds for every answer the notifiers get, so the
Discord notifier is called also when the Pushover notifier fails. -/
theorem cycle_notifier_calls (rt : Runtime) (net : Net) (apps : List AppConfig) :
    (cycle rt net apps).2.filter Event.isNotifierCall
      = apps.enum.flatMap
          (fun p => notifierCallsFor (checkAppStatus (net.get p.1) p.2.URL).1 p.2) := by
  rw [cycle_eq]
  simp only [List.filter_append, tracesFrom_calls, List.enum]
  simp [clearConsole, Event.isNotifierCall]

/-- C6 on a pass over one target whose page offers the beta while Pushover
answers 400: the Pushover notifier returns an error, and both notifiers are
called once, Pushover first. -/
theorem cycle_notifier_calls_witness :
    (sendPushoverNotification demoRuntime (netOpen.postForm 0) "WhatsApp"
        "https://testflight.apple.com/join/krUFQpyJ").1
      = some "Error sending Pushover notification: map[]" ∧
    (cycle demoRuntime netOpen
        [⟨"WhatsApp", "https://testflight.apple.com/join/krUFQpyJ", 7⟩]).2.filter
        Event.isNotifierCall
      = [Event.pushoverCalled "WhatsApp" "https://testflight.apple.com/join/krUFQpyJ",
          Event.discordCalled "WhatsApp" "https://testflight.apple.com/join/krUFQpyJ"] :=
  ⟨rfl, (cycle_notifier_calls demoRuntime netOpen
      [⟨"WhatsApp", "https://testflight.apple.com/join/krUFQpyJ", 7⟩]).trans rfl⟩

/-- C9 as the spec states it, refuted: a counter one short of the largest `int`
goes through two passes that both find the target unavailable; after the first
it is the largest `int`, after the second the smallest one, which is neither
the start value plus 2 nor greater than the value before. -/
theorem runCycles_unavailable_overflow :
    (checkAppStatus (netFull.get 0) "https://testflight.apple.com/join/krUFQpyJ").1 = .ok false ∧
    ((runCycles demoRuntime (fun _ => netFull) 1 appsBelowMaxInt).1[0]?).map
        AppConfig.NoSlotCount = some maxInt ∧
    ((runCycles demoRuntime (fun _ => netFull) 2 appsBelowMaxInt).1[0]?).map
        AppConfig.NoSlotCount = some minInt ∧
    minInt ≠ (maxInt - 1) + 2 ∧ minInt < maxInt :=
  ⟨rfl, rfl, rfl, by decide, by decide⟩

/-- C9, amended: from a start value `c` that is an `int`, through `n` passes
that all find the target unavailable, with `c + n` not above the largest
`int`: after `k ≤ n` of them the counter is `c + k`; each pass makes it
strictly greater; and from `c ≥ 0` it is never 0 after a pass. -/
theorem runCycles_unavailable_counts (rt : Runtime) (nets : Nat → Net)
    (apps : List AppConfig) (i : Nat) (a : AppConfig) (n : Nat) (h : apps[i]? = some a)
    (hlo : minInt ≤ a.NoSlotCount) (hhi : a.NoSlotCount + n ≤ maxInt)
    (hfull : ∀ k, k < n → (checkAppStatus ((nets k).get i) a.URL).1 = .ok false) :
    (∀ k, k ≤ n → ((runCycles rt nets k apps).1[i]?).map AppConfig.NoSlotCount
        = some (a.NoSlotCount + k)) ∧
    (∀ k, k < n → ∃ c c1,
        ((runCycles rt nets k apps).1[i]?).map AppConfig.NoSlotCount = some c ∧
        ((runCycles rt nets (k + 1) apps).1[i]?).map AppConfig.NoSlotCount = some c1 ∧
        c < c1) ∧
    (0 ≤ a.NoSlotCount → ∀ k, 1 ≤ k → k ≤ n →
        ((runCycles rt nets k apps).1[i]?).map AppConfig.NoSlotCount ≠ some 0) := by
  have key := runCycles_getElem? rt nets apps i a n h hlo hhi hfull
  refine ⟨?_, ?_, ?_⟩
  · intro k hk
    simp [key k hk]
  · intro k hk
    refine ⟨a.NoSlotCount + k, a.NoSlotCount + (k + 1 : Nat), ?_, ?_, ?_⟩
    · simp [key k (by omega)]
    · simp [key (k + 1) (by omega)]
    · omega
  · intro h0 k hk1 hk
    simp only [key k hk, Option.map_some', ne_eq, Option.some.injEq]
    omega

/-- C9, amended, on the registry of the program: three passes that find
"WhatsApp" unavailable take its counter from 0 to 3. -/
theorem runCycles_unavailable_counts_witness :
    ((runCycles demoRuntime (fun _ => netFull) 3 appsToMonitor).1[0]?).map
        AppConfig.NoSlotCount = some (0 + (3 : Nat)) :=
  (runCycles_unavailable_counts demoRuntime (fun _ => netFull) appsToMonitor 0
    ⟨"WhatsApp", "https://testflight.apple.com/join/krUFQpyJ", 0⟩ 3 rfl (by decide) (by decide)
    (fun _ _ => rfl)).1 3 (Nat.le_refl 3)

/-- C10: one pass keeps the length and order of the registry and every
target's name and URL; the target at index `i` gets the counter `nextCount`
computes from the outcome of its own check and its own old counter, whatever
the outcomes of the other checks; and the calls of `checkAppStatus` during the
pass are one per target, on the targets' URLs in registry order. -/
theorem cycle_frame (rt : Runtime) (net : Net) (apps : List AppConfig) :
    (cycle rt net apps).1.length = apps.length ∧
    (cycle rt net apps).1.map AppConfig.Name = apps.map AppConfig.Name ∧
    (cycle rt net apps).1.map AppConfig.URL = apps.map AppConfig.URL ∧
    (∀ i : Nat, (cycle rt net apps).1[i]? = (apps[i]?).map (fun (a : AppConfig) =>
        { a with NoSlotCount :=
            nextCount (checkAppStatus (net.get i) a.URL).1 a.NoSlotCount })) ∧
    (cycle rt net apps).2.filterMap Event.checkedURL = apps.map AppConfig.URL := by
  have hget : ∀ i, (cycle rt net apps).1[i]? = (apps[i]?).map (stepApp net i) :=
    cycle_getElem? rt net apps
  have hlen : (cycle rt net apps).1.length = apps.length := by
    rw [cycle_eq]
    exact passFrom_length net apps 0
  refine ⟨hlen, ?_, ?_, ?_, ?_⟩
  · apply List.ext_getElem?
    intro i
    simp only [List.getElem?_map, hget, Option.map_map]
    cases apps[i]? <;> simp [stepApp]
  · apply List.ext_getElem?
    intro i
    simp only [List.getElem?_map, hget, Option.map_map]
    cases apps[i]? <;> simp [stepApp]
  · intro i
    rw [hget]
    rfl
  · rw [cycle_eq]
    simp only [List.filterMap_append, tracesFrom_checks]
    simp [clearConsole, Event.checkedURL]

end TestflightWatcher
